import Mathlib

set_option autoImplicit false
set_option linter.unreachableTactic false
set_option linter.unusedTactic false
set_option linter.unnecessarySeqFocus false

/-!
Verification of the criteria-to-query translator in `src/lib/query.js`
(the waterline-nedb adapter's `Query` constructor and its helpers
`normalizeCriteria`, `parseWhere`, `parseClause`, `parseExpression`,
`parseValue`, `parseSort`, `caseInsensitive`).

The JavaScript runtime values that flow through the translator are
shallowly embedded as the inductive type `Value` below; JS plain
objects become insertion-ordered association lists, and a thrown JS
exception becomes the `Except.error` case of `Except JsError`.
-/

namespace WaterlineNedb

/--
A JavaScript runtime value, as used by `src/lib/query.js`.

* plain objects are insertion-ordered association lists (JS property
  assignment updates an existing key in place, otherwise appends);
* `int` models JS number literals appearing in criteria; `nan` is the
  result of a failed `parseInt`;
* `floatParsed s` abstractly records `parseFloat(s)` (no claim inspects
  the numeric value of a float coercion);
* `dateOf s` records `new Date(s)`; `dateYMD p0 p1 p2` records
  `new Date(parts[0], parts[1] - 1, parts[2])` applied to the raw parts
  of a `split('-')`;
* `regex src flags` is a RegExp value (a criteria may carry one as an
  operand; the translator itself never finishes building one, see
  `parseExprPair`).
-/
inductive Value where
  | str : String → Value
  | int : Int → Value
  | nan : Value
  | bool : Bool → Value
  | null : Value
  | undef : Value
  | regex : String → String → Value
  | dateOf : String → Value
  | dateYMD : String → String → String → Value
  | floatParsed : String → Value
  | arr : List Value → Value
  | obj : List (String × Value) → Value

/-- `_.isString(val)` from lodash: true exactly on string values. -/
def Value.isString : Value → Bool
  | .str _ => true
  | _ => false

/-- JS property lookup test on an association-list object body
(`_.has(obj, key)` for a plain object). -/
def objHas (kvs : List (String × Value)) (key : String) : Bool :=
  kvs.any (fun kv => kv.1 = key)

/-- JS property assignment `obj[key] = v` on an association-list object
body: updates the existing entry in place when the key is present,
otherwise appends the new entry. -/
def objSet (kvs : List (String × Value)) (key : String) (v : Value) :
    List (String × Value) :=
  if objHas kvs key then
    kvs.map (fun kv => if kv.1 = key then (key, v) else kv)
  else
    kvs ++ [(key, v)]

/-- `_.has(value, key)` on an arbitrary value: property test on plain
objects, false on everything else. -/
def objHasV : Value → String → Bool
  | .obj kvs, key => objHas kvs key
  | _, _ => false

/-- `_.extend(obj, src)`: assign every entry of `src` onto `obj`, in
order, with JS assignment semantics. -/
def jsExtend (obj src : List (String × Value)) : List (String × Value) :=
  src.foldl (fun acc kv => objSet acc kv.1 kv.2) obj

/-- JS strict equality `===` as used by `Array.prototype.indexOf`:
value equality on primitives (with `NaN === NaN` false), reference
equality — hence `false` between a criteria value and a fresh literal —
on objects, arrays, regexes and dates. -/
def jsStrictEq : Value → Value → Bool
  | .int a, .int b => a = b
  | .str a, .str b => a = b
  | .bool a, .bool b => a = b
  | .null, .null => true
  | .undef, .undef => true
  | _, _ => false

/-- `xs.indexOf(v)` with JS strict-equality matching, returning `-1`
when the value does not occur. -/
def jsIndexOfAux (v : Value) : List Value → Int → Int
  | [], _ => -1
  | x :: rest, i => if jsStrictEq x v then i else jsIndexOfAux v rest (i + 1)

/-- `xs.indexOf(v)` (JS `Array.prototype.indexOf`). -/
def jsIndexOf (xs : List Value) (v : Value) : Int :=
  jsIndexOfAux v xs 0

/-! ### Size measure used for termination of the mutually recursive parser -/

mutual

/-- Size of a `Value`; strings are weighted by length because
`parseClause` can expand a string into one entry per character. -/
def szV : Value → Nat
  | .str s => 1 + 2 * s.length
  | .int _ => 1
  | .nan => 1
  | .bool _ => 1
  | .null => 1
  | .undef => 1
  | .regex _ _ => 1
  | .dateOf _ => 1
  | .dateYMD _ _ _ => 1
  | .floatParsed _ => 1
  | .arr xs => 1 + szL xs
  | .obj kvs => 1 + szP kvs

/-- Size of a list of values. -/
def szL : List Value → Nat
  | [] => 0
  | x :: rest => 1 + szV x + szL rest

/-- Size of an association-list object body. -/
def szP : List (String × Value) → Nat
  | [] => 0
  | kv :: rest => 1 + szV kv.2 + szP rest

end

/-! ### Schema -/

/-- One attribute of a Waterline schema: `{ type: '...' }`. -/
structure FieldDef where
  type : String
deriving Repr, DecidableEq

/-- The schema handed to the `Query` constructor: a plain object
mapping field names to attribute definitions. -/
abbrev Schema := List (String × FieldDef)

/-- `_.has(self.schema, field)`. -/
def schemaHas (schema : Schema) (field : String) : Bool :=
  (schema.find? (fun kv => kv.1 = field)).isSome

/-- `self.schema[field].type`, as an `Option` for absent fields. -/
def schemaType (schema : Schema) (field : String) : Option String :=
  (schema.find? (fun kv => kv.1 = field)).map (fun kv => kv.2.type)

/-! ### `parseInt`, `parseFloat` and the date-shape tests -/

/-- `String.prototype.toLowerCase()` restricted to the ASCII range:
uppercase letters are shifted down by 32, all other characters kept.
Every key the translator lowercases (`or`, `like`, `not`, `lt`, `lte`,
`gt`, `gte` and the user-supplied spellings the claims exercise) is
ASCII, so the Unicode cases of the JS method are not modelled. -/
def jsToLower (s : String) : String :=
  String.mk (s.toList.map
    (fun c => if 'A' ≤ c ∧ c ≤ 'Z' then Char.ofNat (c.toNat + 32) else c))

/-- ASCII whitespace skipped by JS `parseInt`. -/
def isJsSpace (c : Char) : Bool :=
  c = ' ' ∨ c = '\t' ∨ c = '\n' ∨ c = '\r' ∨ c = Char.ofNat 11 ∨ c = Char.ofNat 12

/-- Decimal digit test. -/
def isDecDigit (c : Char) : Bool :=
  '0' ≤ c ∧ c ≤ '9'

/-- Hexadecimal digit test. -/
def isHexDigitCh (c : Char) : Bool :=
  isDecDigit c ∨ ('a' ≤ c ∧ c ≤ 'f') ∨ ('A' ≤ c ∧ c ≤ 'F')

/-- Numeric value of a decimal digit. -/
def decDigitVal (c : Char) : Nat :=
  c.toNat - '0'.toNat

/-- Numeric value of a hexadecimal digit. -/
def hexDigitVal (c : Char) : Nat :=
  if isDecDigit c then decDigitVal c
  else if 'a' ≤ c ∧ c ≤ 'f' then c.toNat - 'a'.toNat + 10
  else c.toNat - 'A'.toNat + 10

/-- Value of the longest leading digit run (`none` when there is no
leading digit, which `parseInt` reports as `NaN`). -/
def digitRunValue (base : Nat) (dval : Char → Nat) (isD : Char → Bool)
    (cs : List Char) : Option Nat :=
  let run := cs.takeWhile isD
  if run.isEmpty then none
  else some (run.foldl (fun acc c => acc * base + dval c) 0)

/-- JS `parseInt(val)` with no radix argument (src/lib/query.js line
269): skip whitespace, read an optional sign, treat a `0x`/`0X` prefix
as base 16, otherwise parse the longest leading run of decimal digits;
`NaN` when no digit is found.  Trailing garbage is ignored. -/
def jsParseInt (s : String) : Value :=
  let cs := s.toList.dropWhile isJsSpace
  let signAndRest : Int × List Char :=
    match cs with
    | '-' :: rest => (-1, rest)
    | '+' :: rest => (1, rest)
    | _ => (1, cs)
  let baseAndDigits : Nat × List Char :=
    match signAndRest.2 with
    | '0' :: 'x' :: rest => (16, rest)
    | '0' :: 'X' :: rest => (16, rest)
    | other => (10, other)
  let parsed :=
    if baseAndDigits.1 = 16 then
      digitRunValue 16 hexDigitVal isHexDigitCh baseAndDigits.2
    else
      digitRunValue 10 decDigitVal isDecDigit baseAndDigits.2
  match parsed with
  | none => .nan
  | some n => .int (signAndRest.1 * (n : Int))

/-- The test `/^\d{4}-\d{2}-\d{2}T\d{2}\:\d{2}\:\d{2}\.\d{3}Z$/.test(val)`
from src/lib/query.js line 276, written out over the 24-character
shape. -/
def isoDateTimeRe (s : String) : Bool :=
  match s.toList with
  | [a, b, c, d, '-', e, f, '-', g, h, 'T', i, j, ':', k, l, ':', m, n, '.', o, p, q, 'Z'] =>
      [a, b, c, d, e, f, g, h, i, j, k, l, m, n, o, p, q].all isDecDigit
  | _ => false

/-- The test `/^[1-9]\d{3}-\d{1,2}-\d{1,2}$/.test(val)` from
src/lib/query.js line 280. -/
def plainDateRe (s : String) : Bool :=
  match s.toList with
  | a :: b :: c :: d :: '-' :: rest =>
      (decide ('1' ≤ a) && decide (a ≤ '9') && [b, c, d].all isDecDigit) &&
      (match rest with
       | [m1, '-', d1] => isDecDigit m1 && isDecDigit d1
       | [m1, '-', d1, d2] => isDecDigit m1 && isDecDigit d1 && isDecDigit d2
       | [m1, m2, '-', d1] => isDecDigit m1 && isDecDigit m2 && isDecDigit d1
       | [m1, m2, '-', d1, d2] =>
           isDecDigit m1 && isDecDigit m2 && isDecDigit d1 && isDecDigit d2
       | _ => false)
  | _ => false

/-- `new Date(parts[0], parts[1] - 1, parts[2])` applied to the result
of `val.split('-')` (src/lib/query.js lines 281-282); the constructor
records the raw parts. -/
def dateFromParts (parts : List String) : Value :=
  .dateYMD (parts.getD 0 "") (parts.getD 1 "") (parts.getD 2 "")

/-! ### `Query.prototype.parseValue` (src/lib/query.js lines 257-304) -/

set_option linter.unusedVariables false in
/--
Embeds `Query.prototype.parseValue`.  Only string values are coercion
candidates; every other shape is returned unchanged.  The coercion
block runs when the schema has the field and its declared type is not
`string`; its branches are tried in source order.  The trailing
`if (modifier === '$ne') return val; return val;` of the source returns
the string unchanged either way, so the `modifier` argument does not
influence the result.
-/
def parseValue (schema : Schema) (field : String) (modifier : Option String)
    (val : Value) : Value :=
  match val with
  | .str s =>
      match schemaType schema field with
      | some t =>
          if t = "string" then .str s
          else if t = "integer" then jsParseInt s
          else if t = "float" then .floatParsed s
          else if (isoDateTimeRe s ∧ t = "date") ∨ t = "datetime" then .dateOf s
          else if plainDateRe s ∧ t = "date" then dateFromParts (s.splitOn "-")
          else if s = "false" ∧ t = "boolean" then .bool false
          else if s = "true" ∧ t = "boolean" then .bool true
          else .str s
      | none => .str s
  | v => v

/-! ### `Query.prototype.parseSort` (src/lib/query.js lines 313-324) -/

/-- The iteratee of the `_.reduce` in `parseSort`: rewrite the field
name `id` to `_id` and set the order to `-1` when
`[0, -1].indexOf(order) > -1`, else to `1`. -/
def parseSortEntry (sort : List (String × Value)) (field : String)
    (order : Value) : List (String × Value) :=
  let field := if field = "id" then "_id" else field
  objSet sort field
    (if jsIndexOf [Value.int 0, Value.int (-1)] order > -1 then .int (-1)
     else .int 1)

/-- Embeds `Query.prototype.parseSort`.  `_.reduce` over a non-object
iterates an array's elements under their stringified indices and
treats other non-collections as empty. -/
def parseSort : Value → Value
  | .obj kvs => .obj (kvs.foldl (fun sort kv => parseSortEntry sort kv.1 kv.2) [])
  | .arr xs =>
      .obj ((xs.enum.map (fun p => (toString p.1, p.2))).foldl
        (fun sort kv => parseSortEntry sort kv.1 kv.2) [])
  | _ => .obj []

/-! ### `Query.prototype.caseInsensitive` (src/lib/query.js lines 329-332) -/

/-- The regex metacharacters escaped by `caseInsensitive`:
the class `[-[\]{}()+?*.\/,\\^$|#]` (braces written via their code
points). -/
def regexEscapeChars : List Char :=
  ['-', '[', ']', Char.ofNat 123, Char.ofNat 125, '(', ')', '+', '?',
   '*', '.', '/', ',', '\\', '^', '$', '|', '#']

/-- Embeds `Query.prototype.caseInsensitive`: non-strings pass through;
in a string every regex metacharacter is prefixed with a backslash.
Note that the translator never reaches this function: every call site
in `parseExpression` names it through the undefined identifier `utils`
(see `parseExprPair`). -/
def caseInsensitive : Value → Value
  | .str s =>
      .str (String.mk (s.toList.foldr
        (fun c acc => if c ∈ regexEscapeChars then '\\' :: c :: acc else c :: acc)
        []))
  | v => v

/-! ### Exceptions -/

/-- A JS exception escaping the translator.  `referenceError "utils"`
is the `ReferenceError: utils is not defined` raised by the string-match
branches of `parseExpression`; `typeError` models calling a string
method on a non-string key (e.g. `_.reduce` feeding numeric array
indices to `key.toLowerCase()`). -/
inductive JsError where
  | referenceError : String → JsError
  | typeError : String → JsError
deriving Repr, DecidableEq

/-- Array elements under their stringified indices, starting at `i`
(how `_.reduce` presents an array-like collection to its iteratee). -/
def indexedFrom (i : Nat) : List Value → List (String × Value)
  | [] => []
  | x :: rest => (toString i, x) :: indexedFrom (i + 1) rest

/-- The entries `_.reduce` iterates for the value of a `like` clause
when it is not a string: a plain object's own entries, an array's
elements under their stringified indices, and nothing for other
non-collection shapes (string values are handled directly at the call
site in `parseClausePair`). -/
def likeCollEntries : Value → List (String × Value)
  | .obj kvs => kvs
  | .arr xs => indexedFrom 0 xs
  | _ => []

theorem szP_indexedFrom (i : Nat) (xs : List Value) :
    szP (indexedFrom i xs) = szL xs := by
  induction xs generalizing i with
  | nil => rfl
  | cons x rest ih => simp [indexedFrom, szP, szL, ih]

/-- Size bound that justifies recursing into the expanded entries of a
`like` clause value. -/
theorem szP_likeCollEntries (v : Value) :
    szP (likeCollEntries v) < szV v := by
  cases v <;> simp [likeCollEntries, szP_indexedFrom, szV, szP]

/-! ### `parseExpression` and `parseClause`
(src/lib/query.js lines 89-133 and 151-240) -/

mutual

/--
Embeds `Query.prototype.parseExpression`.  A plain object (which is
never a `Date`) is folded over its modifier/value entries; an array
becomes `{ $in: parseValue(...) }`; anything else is an implicit
equality and goes through `parseValue` directly.
-/
def parseExpression (schema : Schema) (field : String) (expression : Value) :
    Except JsError Value :=
  match expression with
  | .obj kvs => (parseExprEntries schema field [] kvs).map Value.obj
  | .arr xs =>
      Except.ok (.obj [("$in", parseValue schema field (some "$in") (.arr xs))])
  | v => Except.ok (parseValue schema field none v)
termination_by 4 * szV expression
decreasing_by all_goals simp [szV] <;> omega

/-- The `_.reduce` loop of `parseExpression`, entry by entry. -/
def parseExprEntries (schema : Schema) (field : String)
    (obj : List (String × Value)) :
    List (String × Value) → Except JsError (List (String × Value))
  | [] => Except.ok obj
  | (modifier, val) :: rest => do
      let obj2 ← parseExprPair schema field obj modifier val
      parseExprEntries schema field obj2 rest
termination_by l => 4 * szP l + 1
decreasing_by all_goals simp [szP] <;> omega

/--
One iteration of the `_.reduce` in `parseExpression` (src/lib/query.js
lines 157-230), handling a single `modifier : val` entry:

* `!` / `not` (case-insensitive): a plain-object operand without a
  `_bsontype` property recurses under `$not`; otherwise an array
  operand becomes `$nin` and anything else `$ne`, the operand going
  through `parseValue`;
* `contains` / `like` / `startsWith` / `endsWith` with a string
  operand: the source executes `val = utils.caseInsensitive(val)`, but
  no `utils` binding exists in the module (the escaper is
  `Query.prototype.caseInsensitive` and the module only requires
  lodash), so the branch raises `ReferenceError: utils is not defined`
  before any `RegExp` is built;
* the comparison aliases fold to `$lt` / `$lte` / `$gt` / `$gte`
  (the long names are matched case-sensitively, the two-letter forms
  case-insensitively, after lowercasing);
* any other modifier passes through under its own key with a
  `parseValue`-coerced operand.
-/
def parseExprPair (schema : Schema) (field : String)
    (obj : List (String × Value)) (modifier : String) (val : Value) :
    Except JsError (List (String × Value)) :=
  if modifier = "!" ∨ jsToLower modifier = "not" then
    match val with
    | .obj kvs =>
        if objHas kvs "_bsontype" = false then
          (parseExpression schema field (.obj kvs)).map
            (fun sub => objSet obj "$not" sub)
        else
          Except.ok (objSet obj "$ne" (parseValue schema field (some "$ne") (.obj kvs)))
    | .arr xs =>
        Except.ok (objSet obj "$nin" (parseValue schema field (some "$nin") (.arr xs)))
    | v =>
        Except.ok (objSet obj "$ne" (parseValue schema field (some "$ne") v))
  else if val.isString ∧ modifier = "contains" then
    Except.error (.referenceError "utils")
  else if val.isString ∧ modifier = "like" then
    Except.error (.referenceError "utils")
  else if val.isString ∧ modifier = "startsWith" then
    Except.error (.referenceError "utils")
  else if val.isString ∧ modifier = "endsWith" then
    Except.error (.referenceError "utils")
  else if modifier = "<" ∨ modifier = "lessThan" ∨ jsToLower modifier = "lt" then
    Except.ok (objSet obj "$lt" (parseValue schema field (some modifier) val))
  else if modifier = "<=" ∨ modifier = "lessThanOrEqual" ∨ jsToLower modifier = "lte" then
    Except.ok (objSet obj "$lte" (parseValue schema field (some modifier) val))
  else if modifier = ">" ∨ modifier = "greaterThan" ∨ jsToLower modifier = "gt" then
    Except.ok (objSet obj "$gt" (parseValue schema field (some modifier) val))
  else if modifier = ">=" ∨ modifier = "greaterThanOrEqual" ∨ jsToLower modifier = "gte" then
    Except.ok (objSet obj "$gte" (parseValue schema field (some modifier) val))
  else
    Except.ok (objSet obj modifier (parseValue schema field (some modifier) val))
termination_by 4 * szV val + 2
decreasing_by all_goals simp [szV] <;> omega

/--
Embeds `Query.prototype.parseClause`.  A plain object is folded over
its key/value entries.  `_.reduce` presents an array's elements (or a
non-empty string's characters) to the iteratee under numeric keys, on
which `key.toLowerCase()` raises a `TypeError`; other non-collection
inputs reduce over nothing and yield the empty object.
-/
def parseClause (schema : Schema) (original : Value) : Except JsError Value :=
  match original with
  | .obj kvs => (parseClauseEntries schema (.obj kvs) [] kvs).map Value.obj
  | .arr [] => Except.ok (.obj [])
  | .arr (_ :: _) => Except.error (.typeError "key.toLowerCase is not a function")
  | .str s =>
      if s.length = 0 then Except.ok (.obj [])
      else Except.error (.typeError "key.toLowerCase is not a function")
  | _ => Except.ok (.obj [])
termination_by 4 * szV original + 3
decreasing_by all_goals simp [szV] <;> omega

/-- The `_.reduce` loop of `parseClause`, entry by entry.  The
`original` argument is the whole input clause: the source passes it as
the fourth argument of `_.reduce`, binding the iteratee's `this` (see
`parseClausePair`). -/
def parseClauseEntries (schema : Schema) (original : Value)
    (obj : List (String × Value)) :
    List (String × Value) → Except JsError (List (String × Value))
  | [] => Except.ok obj
  | (key, val) :: rest => do
      let obj2 ← parseClausePair schema original obj key val
      parseClauseEntries schema original obj2 rest
termination_by l => 4 * szP l + 4
decreasing_by all_goals simp [szP] <;> omega

/--
One iteration of the `_.reduce` in `parseClause` (src/lib/query.js
lines 93-132), handling a single `key : val` entry:

* `or` (case-insensitive) is folded to `$or` first;
* a logical key (`$or` / `$and` / `$nor`) whose value is an array maps
  `parseClause` over the elements; a non-array value is dropped;
* `like` (case-insensitive) expands its value field by field through
  `parseExpression(field, { like: expression })` and `_.extend`s the
  result into the current output (a string value iterates its
  characters, each a string `like` operand, so its first character
  raises the `utils` ReferenceError);
* any other key is a field: `id` is rewritten to `_id` when
  `!_.has(this, '_id')` — the fourth argument of the enclosing
  `_.reduce` binds `this` to the *original input clause* (lodash
  `thisArg`), so the test looks at the input, not at the output being
  built — and the value goes through `parseExpression`.
-/
def parseClausePair (schema : Schema) (original : Value)
    (obj : List (String × Value)) (key : String) (val : Value) :
    Except JsError (List (String × Value)) :=
  let key1 := if jsToLower key = "or" then "$or" else key
  if key1 = "$or" ∨ key1 = "$and" ∨ key1 = "$nor" then
    match val with
    | .arr clauses =>
        (parseClauseList schema clauses).map
          (fun parsed => objSet obj key1 (.arr parsed))
    | _ => Except.ok obj
  else if jsToLower key1 = "like" then
    match val with
    | .str s =>
        if s.length = 0 then Except.ok (jsExtend obj [])
        else Except.error (.referenceError "utils")
    | v =>
        (parseLikeEntries schema [] (likeCollEntries v)).map
          (fun likes => jsExtend obj likes)
  else
    let key2 := if key1 = "id" ∧ objHasV original "_id" = false then "_id" else key1
    (parseExpression schema key2 val).map (fun pv => objSet obj key2 pv)
termination_by 4 * szV val + 5
decreasing_by
  all_goals simp [szV]
  all_goals first
    | omega
    | (have h := szP_likeCollEntries val; omega)

/-- The `_.map` over the array value of a logical operator key:
every element is parsed as a clause. -/
def parseClauseList (schema : Schema) : List Value → Except JsError (List Value)
  | [] => Except.ok []
  | c :: rest => do
      let p ← parseClause schema c
      let ps ← parseClauseList schema rest
      Except.ok (p :: ps)
termination_by l => 4 * szL l + 6
decreasing_by all_goals simp [szL] <;> omega

/-- The inner `_.reduce` of the `like` branch: each field/expression
entry is parsed as `parseExpression(field, { like: expression })` and
collected into a fresh object. -/
def parseLikeEntries (schema : Schema) (likes : List (String × Value)) :
    List (String × Value) → Except JsError (List (String × Value))
  | [] => Except.ok likes
  | (field, expression) :: rest => do
      let v ← parseExpression schema field (.obj [("like", expression)])
      parseLikeEntries schema (objSet likes field v) rest
termination_by l => 4 * szP l + 6
decreasing_by all_goals simp [szP, szV] <;> omega

end

/-! ### `parseWhere`, `normalizeCriteria` and the `Query` constructor
(src/lib/query.js lines 17-69) -/

/-- Embeds `Query.prototype.parseWhere`: a null `where` becomes the
empty object, everything else goes to `parseClause`. -/
def parseWhere (schema : Schema) (original : Value) : Except JsError Value :=
  match original with
  | .null => Except.ok (.obj [])
  | v => parseClause schema v

/-- The `_.mapValues` iteratee of `normalizeCriteria`: `where` values
go through `parseWhere`, `sort` values through `parseSort`, every
other key passes its value through unchanged. -/
def normalizeEntry (schema : Schema) (key : String) (v : Value) :
    Except JsError Value :=
  if key = "where" then parseWhere schema v
  else if key = "sort" then Except.ok (parseSort v)
  else Except.ok v

/-- The `_.mapValues` loop of `normalizeCriteria`, entry by entry. -/
def normalizeEntries (schema : Schema) :
    List (String × Value) → Except JsError (List (String × Value))
  | [] => Except.ok []
  | (key, v) :: rest => do
      let v2 ← normalizeEntry schema key v
      let rest2 ← normalizeEntries schema rest
      Except.ok ((key, v2) :: rest2)

/-- Embeds `Query.prototype.normalizeCriteria`: `_.mapValues` over the
criteria object.  A non-object input maps an array's elements (or a
string's characters) under stringified index keys — which are neither
`where` nor `sort`, so they pass through — and anything else to the
empty object. -/
def normalizeCriteria (schema : Schema) (options : Value) :
    Except JsError Value :=
  match options with
  | .obj kvs => (normalizeEntries schema kvs).map Value.obj
  | .arr xs => Except.ok (.obj (indexedFrom 0 xs))
  | .str s =>
      Except.ok (.obj (s.toList.enum.map
        (fun p => (toString p.1, Value.str (String.mk [p.2])))))
  | _ => Except.ok (.obj [])

/-! ### Spec-faithful variants used for comparison with the source -/

/--
The identity rewrite as worded by the spec and claim C4: gated on the
OUTPUT object built so far ("only when the output document for that
level does not already contain the key `_id`") instead of on the
original input clause that the source's `_.has(this, '_id')` consults
(`this` being bound to the input clause via the fourth, `thisArg`,
argument of `_.reduce`).  All other branches are as in
`parseClausePair`.  Defined only to be compared with the source
embedding.
-/
def clausePairOutputCheck (schema : Schema) (obj : List (String × Value))
    (key : String) (val : Value) : Except JsError (List (String × Value)) :=
  let key1 := if jsToLower key = "or" then "$or" else key
  if key1 = "$or" ∨ key1 = "$and" ∨ key1 = "$nor" then
    match val with
    | .arr clauses =>
        (parseClauseList schema clauses).map
          (fun parsed => objSet obj key1 (.arr parsed))
    | _ => Except.ok obj
  else if jsToLower key1 = "like" then
    match val with
    | .str s =>
        if s.length = 0 then Except.ok (jsExtend obj [])
        else Except.error (.referenceError "utils")
    | v =>
        (parseLikeEntries schema [] (likeCollEntries v)).map
          (fun likes => jsExtend obj likes)
  else
    let key2 := if key1 = "id" ∧ objHas obj "_id" = false then "_id" else key1
    (parseExpression schema key2 val).map (fun pv => objSet obj key2 pv)

/-- The clause fold of the claim-C4 reading, entry by entry. -/
def clauseEntriesOutputCheck (schema : Schema) (obj : List (String × Value)) :
    List (String × Value) → Except JsError (List (String × Value))
  | [] => Except.ok obj
  | (key, val) :: rest => do
      let obj2 ← clausePairOutputCheck schema obj key val
      clauseEntriesOutputCheck schema obj2 rest

/-- `parseClause` under the claim-C4 reading of the identity rewrite. -/
def parseClauseOutputCheck (schema : Schema) (original : Value) :
    Except JsError Value :=
  match original with
  | .obj kvs => (clauseEntriesOutputCheck schema [] kvs).map Value.obj
  | .arr [] => Except.ok (.obj [])
  | .arr (_ :: _) => Except.error (.typeError "key.toLowerCase is not a function")
  | .str s =>
      if s.length = 0 then Except.ok (.obj [])
      else Except.error (.typeError "key.toLowerCase is not a function")
  | _ => Except.ok (.obj [])

/--
The integer coercion as worded by claim C8: "for every string input the
result is the base-10 parse" — JS `parseInt(val, 10)`: skip whitespace,
read an optional sign, parse the longest leading run of decimal digits,
`NaN` when there is none.  Unlike the source's radix-free `parseInt`, a
`0x`/`0X` prefix is not treated as hexadecimal.  Defined only to be
compared with `jsParseInt`.
-/
def specParseIntBase10 (s : String) : Value :=
  let cs := s.toList.dropWhile isJsSpace
  let signAndRest : Int × List Char :=
    match cs with
    | '-' :: rest => (-1, rest)
    | '+' :: rest => (1, rest)
    | _ => (1, cs)
  match digitRunValue 10 decDigitVal isDecDigit signAndRest.2 with
  | none => .nan
  | some n => .int (signAndRest.1 * (n : Int))

/-- The state produced by the `Query` constructor: the cached schema
and the normalized criteria. -/
structure Query where
  schema : Schema
  criteria : Value

/-- Embeds the `Query` constructor (src/lib/query.js lines 17-26):
cache the schema and normalize the criteria, propagating any raised
exception to the caller. -/
def Query.make (options : Value) (schema : Schema) : Except JsError Query :=
  (normalizeCriteria schema options).map (fun c => Query.mk schema c)

/-! ## Shared lemmas -/

/-- The `modifier` argument of `parseValue` never influences its result
(the source's only use of it, `if (modifier === '$ne') return val;`,
returns the same value as the fall-through `return val`). -/
theorem parseValue_modifier_none (schema : Schema) (f : String) (m : String)
    (v : Value) : parseValue schema f (some m) v = parseValue schema f none v :=
  rfl

/-- `parseExpression` on a one-entry modifier map is the single
`parseExprPair` step wrapped back into an object. -/
theorem parseExpression_singleton (schema : Schema) (f m : String) (v : Value) :
    parseExpression schema f (.obj [(m, v)]) =
      (parseExprPair schema f [] m v).map Value.obj := by
  cases h : parseExprPair schema f [] m v <;>
    simp [parseExpression, parseExprEntries, h,
      bind, Except.bind, Except.map, pure, Except.pure]

/-! ## Claims -/

/--
Claim C1 (code bug): the claim states that constructing a `Query` /
running `normalizeCriteria` never raises an error to the caller, and in
particular that translating a string-match modifier (`contains`,
`like`, `startsWith`, `endsWith`) with a string operand must not throw.
The source contradicts this: each string-match branch of
`parseExpression` executes `val = utils.caseInsensitive(val)`, and no
`utils` binding exists in the module (the escaper is
`Query.prototype.caseInsensitive`; the module only requires lodash), so
the branch raises `ReferenceError: utils is not defined`.  This theorem
evaluates the constructor at the failing input
`new Query({ where: { name: { contains: 'x' } } }, {})`.
-/
theorem c1_string_match_raises_reference_error :
    Query.make (.obj [("where", .obj [("name", .obj [("contains", .str "x")])])]) [] =
      Except.error (.referenceError "utils") := by
  simp +decide [Query.make, normalizeCriteria, normalizeEntries, normalizeEntry,
    parseWhere, parseClause, parseClauseEntries, parseClausePair,
    parseExpression, parseExprEntries, parseExprPair,
    bind, Except.bind, Except.map, pure, Except.pure]

/--
Claim C2 (code bug): the claim states that `{ contains: v }`,
`{ like: v }`, `{ startsWith: v }`, `{ endsWith: v }` with a string
operand `v` each yield a compiled case-insensitive fully anchored
regular expression with the operand's metacharacters escaped.  The
source instead raises `ReferenceError: utils is not defined` in every
one of those branches, before any `RegExp` is constructed, because the
escaper is named through the unbound identifier `utils`.  This theorem
evaluates `parseExpression` at the four failing inputs, including the
claim's own example operand `"a.b"`.
-/
theorem c2_string_match_regex_never_built :
    parseExpression [] "name" (.obj [("contains", .str "a.b")]) =
      Except.error (.referenceError "utils") ∧
    parseExpression [] "name" (.obj [("like", .str "b")]) =
      Except.error (.referenceError "utils") ∧
    parseExpression [] "name" (.obj [("startsWith", .str "c")]) =
      Except.error (.referenceError "utils") ∧
    parseExpression [] "name" (.obj [("endsWith", .str "d")]) =
      Except.error (.referenceError "utils") := by
  refine ⟨?_, ?_, ?_, ?_⟩ <;>
    simp +decide [parseExpression, parseExprEntries, parseExprPair,
      bind, Except.bind, Except.map, pure, Except.pure]

/--
Claim C3 (code bug): the claim states that
`{ where: { like: { name: "jo%n" } } }` translates to
`{ where: { name: /^jo.*n$/i } }`.  The clause parser does expand the
`like` mapping through `ExpressionParser(field, { like: expression })`,
but that expression parser's `like` branch dereferences the unbound
identifier `utils`, so the end-to-end translation raises
`ReferenceError: utils is not defined` instead of producing the regex.
This theorem evaluates `normalizeCriteria` at the claim's end-to-end
input.
-/
theorem c3_like_clause_raises_reference_error :
    normalizeCriteria []
      (.obj [("where", .obj [("like", .obj [("name", .str "jo%n")])])]) =
      Except.error (.referenceError "utils") := by
  simp +decide [normalizeCriteria, normalizeEntries, normalizeEntry,
    parseWhere, parseClause, parseClauseEntries, parseClausePair,
    parseLikeEntries, likeCollEntries,
    parseExpression, parseExprEntries, parseExprPair,
    bind, Except.bind, Except.map, pure, Except.pure]

/--
Claim C4 counterexample: the claim gates the `id` → `_id` rewrite on
the OUTPUT document built so far.  On the clause
`{ id: 1, _id: 2 }` (entries processed in that order) the output is
still empty — and in particular contains no `_id` key — when the `id`
entry is processed, so under the claim `id` would be rewritten, giving
`{ _id: 2 }` (the spec-worded variant `parseClauseOutputCheck`).  The
source instead tests `_.has(this, '_id')` with `this` bound to the
ORIGINAL input clause, which does contain `_id`, so `id` is left
unrewritten and the result keeps both keys.
-/
theorem c4_output_gate_counterexample :
    parseClause [] (.obj [("id", .int 1), ("_id", .int 2)]) =
      Except.ok (.obj [("id", .int 1), ("_id", .int 2)]) ∧
    parseClauseOutputCheck [] (.obj [("id", .int 1), ("_id", .int 2)]) =
      Except.ok (.obj [("_id", .int 2)]) ∧
    Value.obj [("id", Value.int 1), ("_id", Value.int 2)] ≠
      Value.obj [("_id", Value.int 2)] := by
  refine ⟨?_, ?_, ?_⟩
  · simp +decide [parseClause, parseClauseEntries, parseClausePair, objHasV,
      objHas, objSet, parseExpression, parseValue, schemaType,
      bind, Except.bind, Except.map, pure, Except.pure]
  · simp +decide [parseClauseOutputCheck, clauseEntriesOutputCheck,
      clausePairOutputCheck, objHas, objSet, parseExpression, parseValue,
      schemaType, bind, Except.bind, Except.map, pure, Except.pure]
  · simp

/--
Claim C4 (amended): at every clause level, a key equal to `id` is
rewritten to `_id` exactly once per level, and only when the ORIGINAL
input clause for that level does not contain the key `_id`; if `_id` is
present in the input clause, the `id` key is left unrewritten.  (The
source's `_.has(this, '_id')` consults the input clause, `this` being
bound to it by the fourth argument of `_.reduce`, not the output being
built.)
-/
theorem c4_id_rewrite_gated_on_input (schema : Schema) (original : Value)
    (obj : List (String × Value)) (v : Value) :
    parseClausePair schema original obj "id" v =
      (parseExpression schema (if objHasV original "_id" then "id" else "_id") v).map
        (fun pv => objSet obj (if objHasV original "_id" then "id" else "_id") pv) := by
  cases h : objHasV original "_id" <;>
    simp +decide [parseClausePair.eq_def, h]

/-- Witness for `c4_id_rewrite_gated_on_input` at a concrete input:
with an original clause lacking `_id`, the key is rewritten. -/
theorem c4_id_rewrite_gated_on_input_witness :
    parseClausePair [] (.obj [("id", .int 7)]) [] "id" (.int 7) =
      (parseExpression [] "_id" (.int 7)).map (fun pv => objSet [] "_id" pv) := by
  have h := c4_id_rewrite_gated_on_input [] (.obj [("id", .int 7)]) [] (.int 7)
  simpa [objHasV, objHas] using h

/--
Claim C5: for every field and operand, `{ lessThan: v }`, `{ "<": v }`,
`{ lt: v }` and `{ LT: v }` all translate to the same operator document
`{ $lt: coerce(v) }` with the operand coerced through `parseValue`
(ValueCoercer), and analogously `<=`/`lessThanOrEqual`/`lte`/`LTE` →
`$lte`, `>`/`greaterThan`/`gt`/`GT` → `$gt`,
`>=`/`greaterThanOrEqual`/`gte`/`GTE` → `$gte` (the two-letter forms
case-insensitively, witnessing the claim's case-insensitivity).
-/
theorem c5_comparison_alias_equivalence (schema : Schema) (f : String)
    (v : Value) :
    (parseExpression schema f (.obj [("lessThan", v)]) =
        Except.ok (.obj [("$lt", parseValue schema f none v)]) ∧
      parseExpression schema f (.obj [("<", v)]) =
        Except.ok (.obj [("$lt", parseValue schema f none v)]) ∧
      parseExpression schema f (.obj [("lt", v)]) =
        Except.ok (.obj [("$lt", parseValue schema f none v)]) ∧
      parseExpression schema f (.obj [("LT", v)]) =
        Except.ok (.obj [("$lt", parseValue schema f none v)])) ∧
    (parseExpression schema f (.obj [("lessThanOrEqual", v)]) =
        Except.ok (.obj [("$lte", parseValue schema f none v)]) ∧
      parseExpression schema f (.obj [("<=", v)]) =
        Except.ok (.obj [("$lte", parseValue schema f none v)]) ∧
      parseExpression schema f (.obj [("lte", v)]) =
        Except.ok (.obj [("$lte", parseValue schema f none v)]) ∧
      parseExpression schema f (.obj [("LTE", v)]) =
        Except.ok (.obj [("$lte", parseValue schema f none v)])) ∧
    (parseExpression schema f (.obj [("greaterThan", v)]) =
        Except.ok (.obj [("$gt", parseValue schema f none v)]) ∧
      parseExpression schema f (.obj [(">", v)]) =
        Except.ok (.obj [("$gt", parseValue schema f none v)]) ∧
      parseExpression schema f (.obj [("gt", v)]) =
        Except.ok (.obj [("$gt", parseValue schema f none v)]) ∧
      parseExpression schema f (.obj [("GT", v)]) =
        Except.ok (.obj [("$gt", parseValue schema f none v)])) ∧
    (parseExpression schema f (.obj [("greaterThanOrEqual", v)]) =
        Except.ok (.obj [("$gte", parseValue schema f none v)]) ∧
      parseExpression schema f (.obj [(">=", v)]) =
        Except.ok (.obj [("$gte", parseValue schema f none v)]) ∧
      parseExpression schema f (.obj [("gte", v)]) =
        Except.ok (.obj [("$gte", parseValue schema f none v)]) ∧
      parseExpression schema f (.obj [("GTE", v)]) =
        Except.ok (.obj [("$gte", parseValue schema f none v)])) := by
  refine ⟨⟨?_, ?_, ?_, ?_⟩, ⟨?_, ?_, ?_, ?_⟩, ⟨?_, ?_, ?_, ?_⟩, ⟨?_, ?_, ?_, ?_⟩⟩ <;>
    simp +decide [parseExpression_singleton, parseExprPair.eq_def,
      parseValue_modifier_none, objSet, objHas,
      bind, Except.bind, Except.map, pure, Except.pure]

/--
Claim C6: under a negation modifier (`!` or `not`, case-insensitive) a
plain-object operand that does not carry a `_bsontype` property
recurses under `$not`; an array operand becomes `$nin` with the
sequence; any other operand becomes `$ne` with the coerced scalar.
End to end, `{ where: { age: { not: [1,2,3] } } }` translates to
`{ where: { age: { $nin: [1,2,3] } } }`.
-/
theorem c6_negation_modifier (schema : Schema) (f : String) (v : Value) :
    (parseExpression schema f (.obj [("not", v)]) =
      match v with
      | .obj kvs =>
          if objHas kvs "_bsontype" = false then
            (parseExpression schema f (.obj kvs)).map
              (fun sub => Value.obj [("$not", sub)])
          else
            Except.ok (.obj [("$ne", parseValue schema f (some "$ne") (.obj kvs))])
      | .arr xs => Except.ok (.obj [("$nin", Value.arr xs)])
      | w => Except.ok (.obj [("$ne", parseValue schema f (some "$ne") w)])) ∧
    parseExpression schema f (.obj [("!", v)]) =
      parseExpression schema f (.obj [("not", v)]) ∧
    parseExpression schema f (.obj [("NOT", v)]) =
      parseExpression schema f (.obj [("not", v)]) ∧
    normalizeCriteria []
        (.obj [("where", .obj [("age", .obj [("not", .arr [.int 1, .int 2, .int 3])])])]) =
      Except.ok (.obj [("where",
        .obj [("age", .obj [("$nin", .arr [.int 1, .int 2, .int 3])])])]) := by
  refine ⟨?_, ?_, ?_, ?_⟩
  · cases v
    case obj kvs =>
      cases hb : objHas kvs "_bsontype" with
      | false =>
          cases h : parseExpression schema f (.obj kvs) with
          | error e =>
              simp +decide [parseExpression_singleton, parseExprPair.eq_def, hb, h,
                objSet, bind, Except.bind, Except.map, pure, Except.pure]
          | ok s =>
              simp +decide [parseExpression_singleton, parseExprPair.eq_def, hb, h,
                objSet, bind, Except.bind, Except.map, pure, Except.pure]
      | true =>
          simp +decide [parseExpression_singleton, parseExprPair.eq_def, hb,
            objSet, bind, Except.bind, Except.map, pure, Except.pure]
    all_goals
      simp +decide [parseExpression_singleton, parseExprPair.eq_def, parseValue,
        objSet, objHas, bind, Except.bind, Except.map, pure, Except.pure]
  · simp +decide [parseExpression_singleton, parseExprPair.eq_def]
  · simp +decide [parseExpression_singleton, parseExprPair.eq_def]
  · simp +decide [normalizeCriteria, normalizeEntries, normalizeEntry,
      parseWhere, parseClause, parseClauseEntries, parseClausePair,
      parseExpression, parseExprEntries, parseExprPair, parseValue,
      objSet, objHas, objHasV, schemaType,
      bind, Except.bind, Except.map, pure, Except.pure]

/--
Claim C7: for the clause keys `$or`, `$and`, `$nor` — with `or`
(case-insensitively) folded to `$or` first — an array value is mapped
element-wise through `parseClause` and assigned under the key, and any
non-array value drops the key entirely.  End to end,
`{ where: { or: [{ name: "a" }, { name: "b" }] }, sort: { id: -1 } }`
translates to
`{ where: { $or: [{ name: "a" }, { name: "b" }] }, sort: { _id: -1 } }`.
-/
theorem c7_logical_operator_keys (schema : Schema) (original : Value)
    (acc : List (String × Value)) (v : Value) :
    (parseClausePair schema original acc "$or" v =
      match v with
      | .arr clauses =>
          (parseClauseList schema clauses).map
            (fun parsed => objSet acc "$or" (.arr parsed))
      | _ => Except.ok acc) ∧
    (parseClausePair schema original acc "$and" v =
      match v with
      | .arr clauses =>
          (parseClauseList schema clauses).map
            (fun parsed => objSet acc "$and" (.arr parsed))
      | _ => Except.ok acc) ∧
    (parseClausePair schema original acc "$nor" v =
      match v with
      | .arr clauses =>
          (parseClauseList schema clauses).map
            (fun parsed => objSet acc "$nor" (.arr parsed))
      | _ => Except.ok acc) ∧
    parseClausePair schema original acc "or" v =
      parseClausePair schema original acc "$or" v ∧
    parseClausePair schema original acc "OR" v =
      parseClausePair schema original acc "$or" v ∧
    normalizeCriteria []
        (.obj [("where", .obj [("or",
            .arr [.obj [("name", .str "a")], .obj [("name", .str "b")]])]),
          ("sort", .obj [("id", .int (-1))])]) =
      Except.ok (.obj [("where", .obj [("$or",
          .arr [.obj [("name", .str "a")], .obj [("name", .str "b")]])]),
        ("sort", .obj [("_id", .int (-1))])]) := by
  refine ⟨?_, ?_, ?_, ?_, ?_, ?_⟩
  · cases v <;> simp +decide [parseClausePair.eq_def]
  · cases v <;> simp +decide [parseClausePair.eq_def]
  · cases v <;> simp +decide [parseClausePair.eq_def]
  · simp +decide [parseClausePair.eq_def]
  · simp +decide [parseClausePair.eq_def]
  · simp +decide [normalizeCriteria, normalizeEntries, normalizeEntry,
      parseWhere, parseClause, parseClauseEntries, parseClausePair,
      parseClauseList, parseExpression, parseExprEntries, parseExprPair,
      parseValue, parseSort, parseSortEntry, jsIndexOf, jsIndexOfAux,
      jsStrictEq, objSet, objHas, objHasV, schemaType,
      bind, Except.bind, Except.map, pure, Except.pure]

/--
Claim C8 counterexample: the claim states that for an integer-typed
field "for every string input the result is the base-10 parse".  The
source uses `parseInt(val)` with no radix, which treats a `0x`/`0X`
prefix as hexadecimal: on the string `"0x10"` the code produces the
integer 16, while the base-10 parse (`parseInt(val, 10)`, the
spec-worded `specParseIntBase10`) produces 0.
-/
theorem c8_hex_parse_counterexample :
    parseValue [("age", FieldDef.mk "integer")] "age" none (.str "0x10") =
      Value.int 16 ∧
    specParseIntBase10 "0x10" = Value.int 0 ∧
    Value.int 16 ≠ Value.int 0 := by
  refine ⟨rfl, rfl, by simp⟩

/--
Claim C8 (amended): for a field whose declared type is `integer`, a
string value is parsed with JS `parseInt` default-radix semantics —
base 10, except that a `0x`/`0X` prefix switches to base 16 — with
`NaN` on unparsable input propagated as-is (`"42"` parses to 42,
`"abc"` to `NaN`); for a field declared exactly `string`, or a field
unknown to the schema, the string is returned unchanged.
-/
theorem c8_integer_coercion (schema : Schema) (field s : String)
    (m : Option String) :
    (schemaType schema field = some "integer" →
      parseValue schema field m (.str s) = jsParseInt s) ∧
    (schemaType schema field = some "string" →
      parseValue schema field m (.str s) = .str s) ∧
    (schemaType schema field = none →
      parseValue schema field m (.str s) = .str s) ∧
    jsParseInt "42" = Value.int 42 ∧
    jsParseInt "abc" = Value.nan := by
  refine ⟨?_, ?_, ?_, rfl, rfl⟩ <;> intro h <;> simp +decide [parseValue, h]

/-- Witness for `c8_integer_coercion` at concrete schemas: `"42"` on an
integer field becomes the integer 42, and stays the string `"42"` on a
string field. -/
theorem c8_integer_coercion_witness :
    schemaType [("age", FieldDef.mk "integer")] "age" = some "integer" ∧
    parseValue [("age", FieldDef.mk "integer")] "age" none (.str "42") =
      jsParseInt "42" ∧
    schemaType [("name", FieldDef.mk "string")] "name" = some "string" ∧
    parseValue [("name", FieldDef.mk "string")] "name" none (.str "42") =
      .str "42" :=
  ⟨rfl, (c8_integer_coercion [("age", FieldDef.mk "integer")] "age" "42" none).1 rfl,
    rfl, (c8_integer_coercion [("name", FieldDef.mk "string")] "name" "42" none).2.1 rfl⟩

/-- `[0, -1].indexOf(order) > -1` holds exactly when the order value is
the number 0 or the number -1 (strict equality rejects every other
shape, including strings and booleans). -/
theorem sortIndexOf_iff (order : Value) :
    (jsIndexOf [Value.int 0, Value.int (-1)] order > -1) ↔
      (order = Value.int 0 ∨ order = Value.int (-1)) := by
  cases order <;>
    simp +decide [jsIndexOf, jsIndexOfAux, jsStrictEq]
  case int n =>
    by_cases h0 : n = 0
    · subst h0
      simp
    · by_cases h1 : n = -1
      · subst h1
        simp
      · have e0 : ¬ ((0 : Int) = n) := fun hh => h0 hh.symm
        have e1 : ¬ ((-1 : Int) = n) := fun hh => h1 hh.symm
        simp [e0, e1, h0, h1]

/--
Claim C9: `parseSort` (SortNormalizer) maps an entry's order indicator
to `-1` exactly when it is the number 0 or the number -1, and to `1`
for every other value (including 1, truthy strings such as `"asc"`,
and `true`), and rewrites the field name `id` to `_id`.
-/
theorem c9_sort_normalization (acc : List (String × Value)) (field : String)
    (order : Value) :
    ((order = Value.int 0 ∨ order = Value.int (-1)) →
      parseSortEntry acc field order =
        objSet acc (if field = "id" then "_id" else field) (Value.int (-1))) ∧
    ((order ≠ Value.int 0 ∧ order ≠ Value.int (-1)) →
      parseSortEntry acc field order =
        objSet acc (if field = "id" then "_id" else field) (Value.int 1)) ∧
    parseSort (.obj [("id", .int 0)]) = .obj [("_id", .int (-1))] ∧
    parseSort (.obj [("a", .int (-1)), ("b", .int 1), ("c", .str "asc"),
        ("d", .bool true)]) =
      .obj [("a", .int (-1)), ("b", .int 1), ("c", .int 1), ("d", .int 1)] := by
  refine ⟨?_, ?_, ?_, ?_⟩
  · intro h
    have hgt := (sortIndexOf_iff order).2 h
    simp [parseSortEntry, hgt]
  · intro h
    have hgt : ¬ (jsIndexOf [Value.int 0, Value.int (-1)] order > -1) :=
      fun hc => by rcases (sortIndexOf_iff order).1 hc with h0 | h1
                   exacts [h.1 h0, h.2 h1]
    simp [parseSortEntry, hgt]
  · simp +decide [parseSort, parseSortEntry, jsIndexOf, jsIndexOfAux,
      jsStrictEq, objSet, objHas]
  · simp +decide [parseSort, parseSortEntry, jsIndexOf, jsIndexOfAux,
      jsStrictEq, objSet, objHas]

/-- Witness for `c9_sort_normalization` at concrete inputs: order 0 on
field `id` gives `_id : -1`; order `"asc"` on field `age` gives
`age : 1`. -/
theorem c9_sort_normalization_witness :
    parseSortEntry [] "id" (Value.int 0) = objSet [] "_id" (Value.int (-1)) ∧
    parseSortEntry [] "age" (Value.str "asc") = objSet [] "age" (Value.int 1) := by
  constructor
  · have h := (c9_sort_normalization [] "id" (Value.int 0)).1 (Or.inl rfl)
    simpa +decide using h
  · have h := (c9_sort_normalization [] "age" (Value.str "asc")).2.1
      (by constructor <;> simp)
    simpa +decide using h

/--
Claim C10: a string-match modifier (`contains`, `like`, `startsWith`,
`endsWith`) whose operand is not a string never reaches the regex
branch — the branch is gated on the operand's runtime type, not the
field's declared type — and falls through to the generic pass-through,
so the modifier key is preserved verbatim with a `parseValue`-coerced
operand (which leaves every non-string unchanged).
-/
theorem c10_nonstring_operand_passthrough (schema : Schema) (f : String)
    (v : Value) (h : v.isString = false) :
    parseExpression schema f (.obj [("contains", v)]) =
      Except.ok (.obj [("contains", parseValue schema f (some "contains") v)]) ∧
    parseExpression schema f (.obj [("like", v)]) =
      Except.ok (.obj [("like", parseValue schema f (some "like") v)]) ∧
    parseExpression schema f (.obj [("startsWith", v)]) =
      Except.ok (.obj [("startsWith", parseValue schema f (some "startsWith") v)]) ∧
    parseExpression schema f (.obj [("endsWith", v)]) =
      Except.ok (.obj [("endsWith", parseValue schema f (some "endsWith") v)]) := by
  refine ⟨?_, ?_, ?_, ?_⟩ <;>
    simp +decide [parseExpression_singleton, parseExprPair.eq_def, h,
      objSet, objHas, bind, Except.bind, Except.map, pure, Except.pure]

/-- Witness for `c10_nonstring_operand_passthrough` at the concrete
non-string operand 42: `{ contains: 42 }` stays `{ contains: 42 }`. -/
theorem c10_nonstring_operand_passthrough_witness :
    Value.isString (Value.int 42) = false ∧
    parseExpression [] "age" (.obj [("contains", .int 42)]) =
      Except.ok (.obj [("contains", .int 42)]) :=
  ⟨rfl, (c10_nonstring_operand_passthrough [] "age" (.int 42) rfl).1⟩

end WaterlineNedb
